import Mathlib

/-!
Verification of the conditional gating and acceptability evaluation engine
of the octocov configuration package (`config/config.go`).

Modelling conventions:
- Go `float64` metric values and thresholds are modelled as `ℚ` (the claims
  concern exact comparisons and fixed decimal literals, not rounding).
- Go `time.Duration` (an `int64` nanosecond count) is modelled as `ℤ`.
- A Go function returning `error` is modelled as returning `Option String`,
  where `none` is the `nil` (pass) result and `some msg` an error.
- External collaborators (the `gh` platform client package, the `expr`
  expression engine, `strconv.ParseFloat`, `duration.Parse`,
  `time.Duration.String`, `fmt` formatting) are modelled from the spec's
  description of their narrow interfaces; each such definition carries a
  doc comment saying so.
-/

set_option autoImplicit false

namespace Octocov

/-- Decimal digits of a char list read as a base-10 natural number,
as `strconv` does for the integer part of a float literal. -/
def digitsToNat (cs : List Char) : ℕ :=
  cs.foldl (fun n c => 10 * n + (c.toNat - 48)) 0

/-- Modelled from the spec: the decimal fragment of Go `strconv.ParseFloat`
applied to an unsigned literal: an integer part, optionally followed by a
dot and a fractional part, at least one digit overall.
(Exponent, hex, `Inf` and `NaN` forms are outside the grammars the spec
uses for thresholds and are not modelled.) -/
def parseUFrac (cs : List Char) : Option ℚ :=
  let ip := cs.takeWhile Char.isDigit
  match cs.dropWhile Char.isDigit with
  | [] => if ip = [] then none else some (digitsToNat ip)
  | d :: fp =>
    if d = '.' then
      if fp.all Char.isDigit && !(ip.isEmpty && fp.isEmpty) then
        some ((digitsToNat ip : ℚ) + (digitsToNat fp : ℚ) / (10 ^ fp.length))
      else none
    else none

/-- Modelled from the spec: Go `strconv.ParseFloat` on decimal literals,
with an optional leading sign. -/
def parseFloat (s : String) : Option ℚ :=
  match s.data with
  | [] => none
  | d :: cs =>
    if d = '-' then (parseUFrac cs).map Neg.neg
    else if d = '+' then parseUFrac cs
    else parseUFrac (d :: cs)

/-- Go `strings.TrimSuffix`: remove `suf` from the end of `s` when present,
otherwise return `s` unchanged. -/
def trimSuffix (s suf : String) : String :=
  if s.data.reverse.take suf.data.length = suf.data.reverse then
    ⟨(s.data.reverse.drop suf.data.length).reverse⟩
  else s

/-- Go `strings.TrimPrefix`: remove `pre` from the front of `s` when present,
otherwise return `s` unchanged. -/
def trimLeading (s pre : String) : String :=
  if s.data.take pre.data.length = pre.data then ⟨s.data.drop pre.data.length⟩
  else s

/-- Substring containment (Go `strings.Contains`), used to state that an
error message embeds a value. -/
def containsSub (s sub : String) : Bool :=
  s.data.tails.any (fun t => sub.data.isPrefixOf t)

/-- Modelled from the spec: the error produced when a threshold remainder is
not a valid number (`strconv.ParseFloat`'s `invalid syntax` error). -/
def parseFloatErrMsg (s : String) : String :=
  "strconv.ParseFloat: parsing " ++ s ++ ": invalid syntax"

/-- Modelled from the spec: Go `fmt` `%.1f` formatting of a rational:
round to one decimal place and print with exactly one fractional digit. -/
def formatOneDec (q : ℚ) : String :=
  let n : ℤ := round (q * 10)
  (if n < 0 then "-" else "") ++ toString (n.natAbs / 10) ++ "." ++ toString (n.natAbs % 10)

/-- Function `coverageAcceptable` from `config/config.go`: empty threshold passes;
otherwise strip a trailing `%`, parse the remainder as a float, and fail
iff the coverage value is below the parsed threshold. -/
def coverageAcceptable (cov : ℚ) (cond : String) : Option String :=
  if cond = "" then none
  else
    match parseFloat (trimSuffix cond "%") with
    | none => some (parseFloatErrMsg (trimSuffix cond "%"))
    | some a =>
      if cov < a then
        some ("code coverage is " ++ formatOneDec cov ++ "%, which is below the accepted " ++ formatOneDec a ++ "%")
      else none

/-- Function `codeToTestRatioAcceptable` from `config/config.go`: empty threshold
passes; otherwise strip a leading `1:`, parse the remainder as a float, and
fail iff the ratio value is below the parsed threshold. -/
def codeToTestRatioAcceptable (ratio : ℚ) (cond : String) : Option String :=
  if cond = "" then none
  else
    match parseFloat (trimLeading cond "1:") with
    | none => some (parseFloatErrMsg (trimLeading cond "1:"))
    | some a =>
      if ratio < a then
        some ("code to test ratio is 1:" ++ formatOneDec ratio ++ ", which is below the accepted 1:" ++ formatOneDec a)
      else none

/-- Nanoseconds per unit of the duration grammar. Modelled from the spec:
the duration-literal parser supports weeks/days/hours/minutes/seconds and
sub-second units. -/
def unitNanos (u : String) : Option ℚ :=
  if u = "ns" then some 1
  else if u = "us" then some 1000
  else if u = "ms" then some 1000000
  else if u = "s" || u = "sec" || u = "second" || u = "seconds" then some 1000000000
  else if u = "m" || u = "min" || u = "minute" || u = "minutes" then some 60000000000
  else if u = "h" || u = "hr" || u = "hour" || u = "hours" then some 3600000000000
  else if u = "d" || u = "day" || u = "days" then some 86400000000000
  else if u = "w" || u = "week" || u = "weeks" then some 604800000000000
  else none

/-- Modelled from the spec: one pass of the compound duration parser —
a decimal number followed by a unit word, repeated; fuel bounds recursion. -/
def durationParseAux : ℕ → List Char → Option ℚ
  | _, [] => some 0
  | 0, _ => none
  | fuel + 1, cs =>
    let numCs := cs.takeWhile (fun c => c.isDigit || c = '.')
    let rest1 := cs.dropWhile (fun c => c.isDigit || c = '.')
    match parseUFrac numCs with
    | none => none
    | some q =>
      let unitCs := rest1.takeWhile Char.isAlpha
      let rest2 := rest1.dropWhile Char.isAlpha
      match unitNanos ⟨unitCs⟩ with
      | none => none
      | some u => (durationParseAux fuel rest2).map (fun r => q * u + r)

/-- Modelled from the spec: `duration.Parse` (external `k1LoW/duration`
collaborator) — a human duration literal with compound units, yielding a
`time.Duration` nanosecond count. -/
def durationParse (s : String) : Option ℤ :=
  if s = "" then none
  else (durationParseAux s.data.length s.data).map (fun q => ⌊q⌋)

/-- Go's `float64` to `int64` conversion truncates toward zero. -/
def truncInt (q : ℚ) : ℤ :=
  if q < 0 then -⌊-q⌋ else ⌊q⌋

/-- Modelled from the spec: the native duration representation
(Go `time.Duration`'s `String`), printed as hours/minutes/seconds with a
fractional-second part when the nanosecond remainder is nonzero. -/
def formatDuration (n : ℤ) : String :=
  if n = 0 then "0s"
  else
    let a := n.natAbs
    let secs := a / 1000000000
    let rem := a % 1000000000
    let fr :=
      if rem = 0 then ""
      else
        let ds := (toString rem).data
        let padded := List.replicate (9 - ds.length) '0' ++ ds
        "." ++ String.mk ((padded.reverse.dropWhile (fun c => c = '0')).reverse)
    let core :=
      if secs < 60 then toString secs ++ fr ++ "s"
      else if secs < 3600 then toString (secs / 60) ++ "m" ++ toString (secs % 60) ++ fr ++ "s"
      else toString (secs / 3600) ++ "h" ++ toString ((secs / 60) % 60) ++ "m" ++ toString (secs % 60) ++ fr ++ "s"
    (if n < 0 then "-" else "") ++ core

/-- Modelled from the spec: the error produced when a duration threshold
does not parse. -/
def durationParseErrMsg (s : String) : String :=
  "failed to parse duration " ++ s

/-- Function `testExecutionTimeAcceptable` from `config/config.go`: empty threshold
passes; otherwise parse the threshold as a duration and fail iff the
elapsed nanosecond value exceeds it. -/
def testExecutionTimeAcceptable (t : ℚ) (cond : String) : Option String :=
  if cond = "" then none
  else
    match durationParse cond with
    | none => some (durationParseErrMsg cond)
    | some a =>
      if t > (a : ℚ) then
        some ("test execution time is " ++ formatDuration (truncInt t) ++ ", which is above the accepted " ++ formatDuration a)
      else none

/-- Badge color constants from `config/config.go`. -/
def green : String := "#97CA00"

/-- Badge color constant. -/
def yellowgreen : String := "#A4A61D"

/-- Badge color constant. -/
def yellow : String := "#DFB317"

/-- Badge color constant. -/
def orange : String := "#FE7D37"

/-- Badge color constant. -/
def red : String := "#E05D44"

/-- Function `CoverageColor` from `config/config.go`. -/
def CoverageColor (cover : ℚ) : String :=
  if cover ≥ 80 then green
  else if cover ≥ 60 then yellowgreen
  else if cover ≥ 40 then yellow
  else if cover ≥ 20 then orange
  else red

/-- Function `CodeToTestRatioColor` from `config/config.go`. -/
def CodeToTestRatioColor (ratio : ℚ) : String :=
  if ratio ≥ 12/10 then green
  else if ratio ≥ 1 then yellowgreen
  else if ratio ≥ 8/10 then yellow
  else if ratio ≥ 6/10 then orange
  else red

/-- One minute as a `time.Duration` nanosecond count. -/
def minuteNanos : ℤ := 60000000000

/-- Function `TestExecutionTimeColor` from `config/config.go`; `d` is a
`time.Duration` nanosecond count. -/
def TestExecutionTimeColor (d : ℤ) : String :=
  if d < 5 * minuteNanos then green
  else if d < 10 * minuteNanos then yellowgreen
  else if d < 15 * minuteNanos then yellow
  else if d < 20 * minuteNanos then orange
  else red

/-- Modelled from the spec: a value of the dynamically typed expression
language (external `expr` collaborator); the claims only need that values
carry a runtime type tag distinguishing booleans from other kinds. -/
inductive Value where
  | int (n : ℤ)
  | str (s : String)
  | bool (b : Bool)
  | null
  deriving DecidableEq

/-- Modelled from the spec: the decoded upstream event — a name and an
opaque structured payload (`gh.DecodeGitHubEvent`). -/
structure GhEvent where
  name : String
  payload : Value
  deriving DecidableEq

/-- An `owner/repo` pair (`gh.Repository`). -/
structure Repo where
  owner : String
  repo : String
  deriving DecidableEq

/-- Modelled from the spec: `gh.Parse` splits a repository identifier of
the form `owner/repo`; absence or malformation is a fatal error. -/
def ghParse (s : String) : Except String Repo :=
  match s.splitOn "/" with
  | [o, r] =>
    if o = "" || r = "" then Except.error ("could not parse repository name: " ++ s)
    else Except.ok ⟨o, r⟩
  | _ => Except.error ("could not parse repository name: " ++ s)

/-- Modelled from the spec: the platform client collaborator (`gh.Gh`),
exposing default-branch lookup, current-branch detection and
pull-request-number detection, each fallible. -/
structure GhClient where
  getDefaultBranch : String → String → Except String String
  detectCurrentBranch : Except String String
  detectCurrentPullRequestNumber : String → String → Except String Int

/-- The UTC calendar components of the invocation instant
(`time.Now().UTC()`). -/
structure NowParts where
  year : ℤ
  month : ℤ
  day : ℤ
  hour : ℤ
  weekday : ℤ
  deriving DecidableEq

/-- Modelled from the spec: the ambient world `CheckIf` reads — the
decodable event payload, the result of constructing a platform client
(`gh.New`), the process environment and the invocation instant. -/
structure World where
  decodeGitHubEvent : Except String GhEvent
  ghNew : Except String GhClient
  environ : List String
  now : NowParts

/-- The fields of `Config` that `CheckIf` reads: the repository identifier
and the lazily cached platform client handle. -/
structure Cfg where
  repository : String
  gh : Option GhClient

/-- One iteration of the `envMap` loop in `config/config.go`: an entry
without `=` is skipped; otherwise the entry is split at the first `=` into
a key and the whole remainder, and the mapping is updated at that key
(Go map assignment, so a later entry overwrites an earlier one). -/
def envStep (m : String → Option String) (kv : String) : String → Option String :=
  if kv.data.contains '=' then
    fun q =>
      if q = (⟨kv.data.takeWhile (fun c => c ≠ '=')⟩ : String) then
        some (⟨(kv.data.dropWhile (fun c => c ≠ '=')).tail⟩ : String)
      else m q
  else m

/-- Function `envMap` from `config/config.go`: fold the process environment entries
into a string-to-string mapping. -/
def envMap (environ : List String) : String → Option String :=
  environ.foldl envStep (fun _ => none)

/-- The key under which `envMap` stores an entry: the part before the
first `=`, or nothing when the entry has no `=` and is skipped. -/
def entryKey (s : String) : Option String :=
  if s.data.contains '=' then some (⟨s.data.takeWhile (fun c => c ≠ '=')⟩ : String)
  else none

/-- The variables namespace assembled by `CheckIf` for gate evaluation. -/
structure Vars where
  year : ℤ
  month : ℤ
  day : ℤ
  hour : ℤ
  weekday : ℤ
  github_event_name : String
  github_event : Value
  env : String → Option String
  is_default_branch : Bool
  is_pull_request : Bool

/-- The context assembly performed inline in `CheckIf` (lines 315-329 of
`config/config.go`). -/
def mkVars (w : World) (ev : GhEvent) (idb ipr : Bool) : Vars :=
  ⟨w.now.year, w.now.month, w.now.day, w.now.hour, w.now.weekday,
    ev.name, ev.payload, envMap w.environ, idb, ipr⟩

/-- Modelled from the spec: equality in the expression language; operands
of mismatched runtime types are a type error rather than a comparison
(the engine's type coercion rejects them). -/
def valueEq (a b : Value) : Except String Bool :=
  match a, b with
  | Value.int x, Value.int y => Except.ok (x == y)
  | Value.str x, Value.str y => Except.ok (x == y)
  | Value.bool x, Value.bool y => Except.ok (x == y)
  | Value.null, Value.null => Except.ok true
  | _, _ => Except.error "invalid operation: == (mismatched types)"

/-- Modelled from the spec: evaluation of the wrapped formula
`(<cond>) == true` that `CheckIf` hands to the expression engine; the
evaluation of the inner condition itself is abstracted as `evalExpr`. -/
def evalGateFormula (evalExpr : String → Vars → Except String Value)
    (cond : String) (vars : Vars) : Except String Value :=
  match evalExpr cond vars with
  | Except.error e => Except.error e
  | Except.ok v =>
    match valueEq v (Value.bool true) with
    | Except.error e => Except.error e
    | Except.ok b => Except.ok (Value.bool b)

/-- Go's unchecked type assertion `ok.(bool)` at the end of `CheckIf`; on a
non-boolean it would panic, which `checkIf_result_always_bool` below shows
is unreachable. -/
def gateAssertBool (v : Value) : Bool :=
  match v with
  | Value.bool b => b
  | _ => false

/-- The final step of `CheckIf`: propagate an evaluation error, otherwise
assert the result value to a boolean. -/
def gateFinish (r : Except String Value) : Except String Bool :=
  match r with
  | Except.error e => Except.error e
  | Except.ok v => Except.ok (gateAssertBool v)

/-- The platform and context-assembly operations `CheckIf` can perform,
logged in order so that claims about which calls happen are statable. -/
inductive CallTag where
  | decodeEvent
  | parseRepo
  | ghNew
  | getDefaultBranch
  | detectCurrentBranch
  | detectPullRequestNumber
  deriving DecidableEq

/-- The lazy platform-client resolution in `CheckIf`: reuse the cached
handle when present, otherwise construct one via `gh.New`. -/
def resolveGh (c : Cfg) (w : World) : Except String GhClient :=
  match c.gh with
  | some g => Except.ok g
  | none => w.ghNew

/-- The context-assembly operation performed by `resolveGh`: constructing a
new client is a call, reusing the cached handle is not. -/
def resolveGhLog (c : Cfg) : List CallTag :=
  match c.gh with
  | some _ => []
  | none => [CallTag.ghNew]

/-- Function `CheckIf` from `config/config.go` (lines 277-335), with the ambient
world and the expression engine passed explicitly and the performed
context-assembly operations returned alongside the result. -/
def CheckIf (c : Cfg) (w : World) (evalExpr : String → Vars → Except String Value)
    (cond : String) : Except String Bool × List CallTag :=
  if cond = "" then (Except.ok true, [])
  else
    match w.decodeGitHubEvent with
    | Except.error e => (Except.error e, [CallTag.decodeEvent])
    | Except.ok ev =>
      if c.repository = "" then
        (Except.error "env GITHUB_REPOSITORY is not set", [CallTag.decodeEvent])
      else
        match ghParse c.repository with
        | Except.error e => (Except.error e, [CallTag.decodeEvent, CallTag.parseRepo])
        | Except.ok repo =>
          match resolveGh c w with
          | Except.error e =>
            (Except.error e, [CallTag.decodeEvent, CallTag.parseRepo] ++ resolveGhLog c)
          | Except.ok g =>
            match g.getDefaultBranch repo.owner repo.repo with
            | Except.error e =>
              (Except.error e,
                [CallTag.decodeEvent, CallTag.parseRepo] ++ resolveGhLog c ++
                  [CallTag.getDefaultBranch])
            | Except.ok defaultBranch =>
              let isDefaultBranch :=
                match g.detectCurrentBranch with
                | Except.ok b => b == defaultBranch
                | Except.error _ => false
              let isPullRequest :=
                match g.detectCurrentPullRequestNumber repo.owner repo.repo with
                | Except.ok _ => true
                | Except.error _ => false
              let vars := mkVars w ev isDefaultBranch isPullRequest
              (gateFinish (evalGateFormula evalExpr cond vars),
                [CallTag.decodeEvent, CallTag.parseRepo] ++ resolveGhLog c ++
                  [CallTag.getDefaultBranch, CallTag.detectCurrentBranch,
                    CallTag.detectPullRequestNumber])

/-- C6: for every metric kind and every value, the acceptability check with
an empty threshold string always passes (returns nil). -/
theorem acceptable_empty_threshold (v t : ℚ) :
    coverageAcceptable v "" = none ∧ codeToTestRatioAcceptable v "" = none ∧
      testExecutionTimeAcceptable t "" = none :=
  ⟨rfl, rfl, rfl⟩

/-- C4: for the empty gate expression `CheckIf` returns true immediately,
performing no event decoding, no repository parsing and no platform-client
call (the operation log is empty). -/
theorem checkIf_empty_condition (c : Cfg) (w : World)
    (evalExpr : String → Vars → Except String Value) :
    CheckIf c w evalExpr "" = (Except.ok true, []) :=
  rfl

/-- C10: whenever evaluation of the wrapped formula `(<cond>) == true`
completes without error, the result value is a boolean, so the unchecked
type assertion to bool at the end of `CheckIf` always succeeds. -/
theorem checkIf_result_always_bool (evalExpr : String → Vars → Except String Value)
    (cond : String) (vars : Vars) (v : Value)
    (h : evalGateFormula evalExpr cond vars = Except.ok v) :
    ∃ b : Bool, v = Value.bool b := by
  unfold evalGateFormula at h
  cases he : evalExpr cond vars with
  | error e => rw [he] at h; cases h
  | ok x =>
    rw [he] at h
    have h2 : (match valueEq x (Value.bool true) with
        | Except.error e => Except.error e
        | Except.ok b => Except.ok (Value.bool b)) = Except.ok v := h
    cases hv : valueEq x (Value.bool true) with
    | error e => rw [hv] at h2; cases h2
    | ok b =>
      rw [hv] at h2
      injection h2 with h3
      exact ⟨b, h3.symm⟩

/-- C10 witness: the theorem applied at a concrete evaluator whose wrapped
formula evaluates to the boolean true. -/
theorem checkIf_result_always_bool_w : ∃ b : Bool, Value.bool true = Value.bool b :=
  checkIf_result_always_bool (fun _ _ => Except.ok (Value.bool true)) "x"
    ⟨0, 0, 0, 0, 0, "", Value.null, envMap [], false, false⟩ (Value.bool true) rfl

/-- C3: the gate formula is an equality test against boolean true; an
expression whose own value is the (truthy) integer `n` yields a type error
from the coercion, never a silent pass. -/
theorem gate_rejects_nonboolean (evalExpr : String → Vars → Except String Value)
    (cond : String) (vars : Vars) (n : ℤ)
    (h : evalExpr cond vars = Except.ok (Value.int n)) :
    evalGateFormula evalExpr cond vars =
        Except.error "invalid operation: == (mismatched types)" ∧
      gateFinish (evalGateFormula evalExpr cond vars) ≠ Except.ok true := by
  have h1 : evalGateFormula evalExpr cond vars =
      Except.error "invalid operation: == (mismatched types)" := by
    unfold evalGateFormula
    rw [h]
    rfl
  refine ⟨h1, ?_⟩
  rw [h1]
  simp [gateFinish]

/-- C3 witness: the theorem applied at an evaluator returning the integer 1. -/
theorem gate_rejects_nonboolean_w :
    evalGateFormula (fun _ _ => Except.ok (Value.int 1)) "1"
        ⟨0, 0, 0, 0, 0, "", Value.null, envMap [], false, false⟩ =
      Except.error "invalid operation: == (mismatched types)" ∧
    gateFinish (evalGateFormula (fun _ _ => Except.ok (Value.int 1)) "1"
        ⟨0, 0, 0, 0, 0, "", Value.null, envMap [], false, false⟩) ≠ Except.ok true :=
  gate_rejects_nonboolean (fun _ _ => Except.ok (Value.int 1)) "1"
    ⟨0, 0, 0, 0, 0, "", Value.null, envMap [], false, false⟩ 1 rfl

/-- C1: comparison direction is metric-specific — for a non-empty threshold
whose numeric part parses, coverage and ratio pass iff the value is at
least the threshold, while execution time passes iff the elapsed
nanoseconds are at most the parsed duration. -/
theorem acceptable_comparison_direction :
    (∀ (v : ℚ) (cond : String) (a : ℚ), cond ≠ "" →
      parseFloat (trimSuffix cond "%") = some a →
      (coverageAcceptable v cond = none ↔ a ≤ v)) ∧
    (∀ (v : ℚ) (cond : String) (a : ℚ), cond ≠ "" →
      parseFloat (trimLeading cond "1:") = some a →
      (codeToTestRatioAcceptable v cond = none ↔ a ≤ v)) ∧
    (∀ (t : ℚ) (cond : String) (d : ℤ), cond ≠ "" →
      durationParse cond = some d →
      (testExecutionTimeAcceptable t cond = none ↔ t ≤ (d : ℚ))) := by
  refine ⟨?_, ?_, ?_⟩
  · intro v cond a hne hp
    simp only [coverageAcceptable, if_neg hne, hp]
    split_ifs with h
    · simp only [reduceCtorEq, false_iff]
      exact not_le.mpr h
    · simp only [true_iff]
      exact not_lt.mp h
  · intro v cond a hne hp
    simp only [codeToTestRatioAcceptable, if_neg hne, hp]
    split_ifs with h
    · simp only [reduceCtorEq, false_iff]
      exact not_le.mpr h
    · simp only [true_iff]
      exact not_lt.mp h
  · intro t cond d hne hp
    simp only [testExecutionTimeAcceptable, if_neg hne, hp]
    split_ifs with h
    · simp only [reduceCtorEq, false_iff]
      exact not_le.mpr h
    · simp only [true_iff]
      exact not_lt.mp h

/-- C1 witness: with threshold "80%", 80.0 passes and 79.9 fails; with
threshold "10m", 599,000,000,000 ns passes and 601,000,000,000 ns fails. -/
theorem acceptable_comparison_direction_w :
    coverageAcceptable 80 "80%" = none ∧
    coverageAcceptable (799/10) "80%" ≠ none ∧
    testExecutionTimeAcceptable 599000000000 "10m" = none ∧
    testExecutionTimeAcceptable 601000000000 "10m" ≠ none := by
  have hcov := acceptable_comparison_direction.1
  have htime := acceptable_comparison_direction.2.2
  have hp : parseFloat (trimSuffix "80%" "%") = some 80 := by with_unfolding_all rfl
  have hd : durationParse "10m" = some 600000000000 := by with_unfolding_all rfl
  refine ⟨?_, ?_, ?_, ?_⟩
  · exact (hcov 80 "80%" 80 (by decide) hp).mpr (by norm_num)
  · intro h
    exact absurd ((hcov (799/10) "80%" 80 (by decide) hp).mp h) (by norm_num)
  · exact (htime 599000000000 "10m" 600000000000 (by decide) hd).mpr (by norm_num)
  · intro h
    exact absurd ((htime 601000000000 "10m" 600000000000 (by decide) hd).mp h) (by norm_num)

/-- C7: when an acceptability check fails, the error message embeds both
the observed value and the accepted threshold — formatted to one decimal
place for coverage and ratio, and as the native duration representation
for execution time. -/
theorem acceptable_error_message_embeds_values :
    (∀ (v : ℚ) (cond : String) (a : ℚ), cond ≠ "" →
      parseFloat (trimSuffix cond "%") = some a → v < a →
      coverageAcceptable v cond =
        some ("code coverage is " ++ formatOneDec v ++
          "%, which is below the accepted " ++ formatOneDec a ++ "%")) ∧
    (∀ (v : ℚ) (cond : String) (a : ℚ), cond ≠ "" →
      parseFloat (trimLeading cond "1:") = some a → v < a →
      codeToTestRatioAcceptable v cond =
        some ("code to test ratio is 1:" ++ formatOneDec v ++
          ", which is below the accepted 1:" ++ formatOneDec a)) ∧
    (∀ (t : ℚ) (cond : String) (d : ℤ), cond ≠ "" →
      durationParse cond = some d → (d : ℚ) < t →
      testExecutionTimeAcceptable t cond =
        some ("test execution time is " ++ formatDuration (truncInt t) ++
          ", which is above the accepted " ++ formatDuration d)) := by
  refine ⟨?_, ?_, ?_⟩
  · intro v cond a hne hp hlt
    simp only [coverageAcceptable, if_neg hne, hp, if_pos hlt]
  · intro v cond a hne hp hlt
    simp only [codeToTestRatioAcceptable, if_neg hne, hp, if_pos hlt]
  · intro t cond d hne hp hlt
    simp only [testExecutionTimeAcceptable, if_neg hne, hp, if_pos hlt]

/-- C7 witness: the failure message for `coverageAcceptable 79.9 "80%"`
contains both "79.9" and "80.0". -/
theorem acceptable_error_message_embeds_values_w :
    coverageAcceptable (799/10) "80%" =
      some "code coverage is 79.9%, which is below the accepted 80.0%" ∧
    containsSub "code coverage is 79.9%, which is below the accepted 80.0%" "79.9" = true ∧
    containsSub "code coverage is 79.9%, which is below the accepted 80.0%" "80.0" = true := by
  refine ⟨?_, by with_unfolding_all rfl, by with_unfolding_all rfl⟩
  have h := acceptable_error_message_embeds_values.1 (799/10) "80%" 80 (by decide)
    (by with_unfolding_all rfl) (by norm_num)
  exact h.trans (by with_unfolding_all rfl)
/-- C2: each severity-tier mapper realizes exactly the breakpoint table —
for every input exactly one tier applies (the iff-characterizations
partition the input space and the five colors are pairwise distinct), and
the boundary values 80.0, 60.0, 1.2, 1.0 and exactly 5 minutes land in the
tier given by the table. -/
theorem tier_mapping_table :
    (∀ v : ℚ,
      (CoverageColor v = green ↔ 80 ≤ v) ∧
      (CoverageColor v = yellowgreen ↔ 60 ≤ v ∧ v < 80) ∧
      (CoverageColor v = yellow ↔ 40 ≤ v ∧ v < 60) ∧
      (CoverageColor v = orange ↔ 20 ≤ v ∧ v < 40) ∧
      (CoverageColor v = red ↔ v < 20)) ∧
    (∀ r : ℚ,
      (CodeToTestRatioColor r = green ↔ 12/10 ≤ r) ∧
      (CodeToTestRatioColor r = yellowgreen ↔ 1 ≤ r ∧ r < 12/10) ∧
      (CodeToTestRatioColor r = yellow ↔ 8/10 ≤ r ∧ r < 1) ∧
      (CodeToTestRatioColor r = orange ↔ 6/10 ≤ r ∧ r < 8/10) ∧
      (CodeToTestRatioColor r = red ↔ r < 6/10)) ∧
    (∀ d : ℤ,
      (TestExecutionTimeColor d = green ↔ d < 5 * minuteNanos) ∧
      (TestExecutionTimeColor d = yellowgreen ↔ 5 * minuteNanos ≤ d ∧ d < 10 * minuteNanos) ∧
      (TestExecutionTimeColor d = yellow ↔ 10 * minuteNanos ≤ d ∧ d < 15 * minuteNanos) ∧
      (TestExecutionTimeColor d = orange ↔ 15 * minuteNanos ≤ d ∧ d < 20 * minuteNanos) ∧
      (TestExecutionTimeColor d = red ↔ 20 * minuteNanos ≤ d)) ∧
    (CoverageColor 80 = green ∧ CoverageColor 60 = yellowgreen ∧
      CodeToTestRatioColor (12/10) = green ∧ CodeToTestRatioColor 1 = yellowgreen ∧
      TestExecutionTimeColor (5 * minuteNanos) = yellowgreen) ∧
    (green ≠ yellowgreen ∧ green ≠ yellow ∧ green ≠ orange ∧ green ≠ red ∧
      yellowgreen ≠ yellow ∧ yellowgreen ≠ orange ∧ yellowgreen ≠ red ∧
      yellow ≠ orange ∧ yellow ≠ red ∧ orange ≠ red) := by
  refine ⟨?_, ?_, ?_, ?_, ?_⟩
  · intro v
    unfold CoverageColor
    split_ifs with h1 h2 h3 h4 <;>
      simp [green, yellowgreen, yellow, orange, red] <;>
      (refine ⟨?_, ?_, ?_, ?_, ?_⟩ <;> try constructor) <;>
      (intros; linarith)
  · intro r
    unfold CodeToTestRatioColor
    split_ifs with h1 h2 h3 h4 <;>
      simp [green, yellowgreen, yellow, orange, red] <;>
      (refine ⟨?_, ?_, ?_, ?_, ?_⟩ <;> try constructor) <;>
      (intros; linarith)
  · intro d
    unfold TestExecutionTimeColor minuteNanos
    split_ifs with h1 h2 h3 h4 <;>
      simp [green, yellowgreen, yellow, orange, red] <;>
      (refine ⟨?_, ?_, ?_, ?_, ?_⟩ <;> try constructor) <;>
      (intros; omega)
  · refine ⟨?_, ?_, ?_, ?_, ?_⟩ <;> with_unfolding_all rfl
  · refine ⟨?_, ?_, ?_, ?_, ?_, ?_, ?_, ?_, ?_, ?_⟩ <;> decide

/-- C5: with a non-empty expression, a decodable payload, a parsable
repository and a successful default-branch lookup, errors from
current-branch detection and pull-request detection degrade to
`is_default_branch = false` and `is_pull_request = false`; `CheckIf` still
evaluates the expression and does not propagate those errors. -/
theorem checkIf_degrades_on_detection_errors
    (c : Cfg) (w : World) (evalExpr : String → Vars → Except String Value)
    (cond : String) (ev : GhEvent) (repo : Repo) (g : GhClient) (db e1 : String)
    (e2 : String)
    (hcond : cond ≠ "")
    (hdec : w.decodeGitHubEvent = Except.ok ev)
    (hrepo : ghParse c.repository = Except.ok repo)
    (hg : resolveGh c w = Except.ok g)
    (hdb : g.getDefaultBranch repo.owner repo.repo = Except.ok db)
    (hb : g.detectCurrentBranch = Except.error e1)
    (hpr : g.detectCurrentPullRequestNumber repo.owner repo.repo = Except.error e2) :
    (CheckIf c w evalExpr cond).1 =
      gateFinish (evalGateFormula evalExpr cond (mkVars w ev false false)) := by
  have hrne : c.repository ≠ "" := by
    intro he
    rw [he] at hrepo
    rw [(by with_unfolding_all rfl :
      ghParse "" = Except.error ("could not parse repository name: " ++ ""))] at hrepo
    cases hrepo
  unfold CheckIf
  simp only [if_neg hcond, hdec, if_neg hrne, hrepo, hg, hdb, hb, hpr]

/-- C5 witness: the theorem applied to a concrete configuration whose
client has a cached handle, a decodable push event, a parsable repository,
a successful default-branch lookup and failing branch/PR detection. -/
theorem checkIf_degrades_on_detection_errors_w :
    (CheckIf ⟨"a/b", some ⟨fun _ _ => Except.ok "main", Except.error "x",
          fun _ _ => Except.error "y"⟩⟩
        ⟨Except.ok ⟨"push", Value.null⟩, Except.error "no", ["A=1"], ⟨2024, 1, 2, 3, 4⟩⟩
        (fun _ _ => Except.ok (Value.bool true)) "is_pull_request == false").1 =
      gateFinish (evalGateFormula (fun _ _ => Except.ok (Value.bool true))
        "is_pull_request == false"
        (mkVars ⟨Except.ok ⟨"push", Value.null⟩, Except.error "no", ["A=1"], ⟨2024, 1, 2, 3, 4⟩⟩
          ⟨"push", Value.null⟩ false false)) :=
  checkIf_degrades_on_detection_errors
    ⟨"a/b", some ⟨fun _ _ => Except.ok "main", Except.error "x", fun _ _ => Except.error "y"⟩⟩
    ⟨Except.ok ⟨"push", Value.null⟩, Except.error "no", ["A=1"], ⟨2024, 1, 2, 3, 4⟩⟩
    (fun _ _ => Except.ok (Value.bool true)) "is_pull_request == false"
    ⟨"push", Value.null⟩ ⟨"a", "b"⟩
    ⟨fun _ _ => Except.ok "main", Except.error "x", fun _ _ => Except.error "y"⟩
    "main" "x" "y" (by decide) rfl (by with_unfolding_all rfl) rfl rfl rfl rfl

theorem string_mk_data (s : String) : String.mk s.data = s := by
  cases s
  rfl

theorem takeWhile_all_append (p : Char → Bool) (l1 l2 : List Char)
    (h : ∀ a ∈ l1, p a = true) :
    (l1 ++ l2).takeWhile p = l1 ++ l2.takeWhile p := by
  induction l1 with
  | nil => simp
  | cons a t ih =>
    have hpa := h a (List.mem_cons_self a t)
    simp [List.takeWhile_cons, hpa, ih (fun x hx => h x (List.mem_cons_of_mem a hx))]

theorem dropWhile_all_append (p : Char → Bool) (l1 l2 : List Char)
    (h : ∀ a ∈ l1, p a = true) :
    (l1 ++ l2).dropWhile p = l2.dropWhile p := by
  induction l1 with
  | nil => simp
  | cons a t ih =>
    have hpa := h a (List.mem_cons_self a t)
    simp [List.dropWhile_cons, hpa, ih (fun x hx => h x (List.mem_cons_of_mem a hx))]

theorem parseUFrac_chars {cs : List Char} {q : ℚ} (h : parseUFrac cs = some q) :
    ∀ c ∈ cs, c.isDigit = true ∨ c = '.' := by
  have hsplit := List.takeWhile_append_dropWhile Char.isDigit cs
  unfold parseUFrac at h
  cases hd : cs.dropWhile Char.isDigit with
  | nil =>
    rw [hd] at hsplit
    intro c hc
    rw [← hsplit, List.append_nil] at hc
    exact Or.inl (List.mem_takeWhile_imp hc)
  | cons d fp =>
    rw [hd] at h hsplit
    have h2 : (if d = '.' then
        (if fp.all Char.isDigit && !((cs.takeWhile Char.isDigit).isEmpty && fp.isEmpty) then
          some ((digitsToNat (cs.takeWhile Char.isDigit) : ℚ) +
            (digitsToNat fp : ℚ) / (10 ^ fp.length))
        else none)
      else none) = some q := h
    by_cases hdot : d = '.'
    · subst hdot
      rw [if_pos rfl] at h2
      have hall : fp.all Char.isDigit = true := by
        cases hba : fp.all Char.isDigit with
        | true => rfl
        | false => rw [hba] at h2; simp at h2
      intro c hc
      rw [← hsplit] at hc
      rcases List.mem_append.mp hc with h3 | h3
      · exact Or.inl (List.mem_takeWhile_imp h3)
      · rcases List.mem_cons.mp h3 with h4 | h4
        · exact Or.inr h4
        · exact Or.inl (List.all_eq_true.mp hall c h4)
    · rw [if_neg hdot] at h2
      cases h2

theorem parseFloat_chars {s : String} {a : ℚ} (h : parseFloat s = some a) :
    ∀ c ∈ s.data, c.isDigit = true ∨ c = '.' ∨ c = '-' ∨ c = '+' := by
  unfold parseFloat at h
  cases hd : s.data with
  | nil => intro c hc; cases hc
  | cons d cs =>
    rw [hd] at h
    have h2 : (if d = '-' then (parseUFrac cs).map Neg.neg
        else if d = '+' then parseUFrac cs
        else parseUFrac (d :: cs)) = some a := h
    intro c hc
    by_cases hm : d = '-'
    · subst hm
      rw [if_pos rfl] at h2
      rcases Option.map_eq_some'.mp h2 with ⟨q, hq, _⟩
      rcases List.mem_cons.mp hc with h4 | h4
      · exact Or.inr (Or.inr (Or.inl h4))
      · rcases parseUFrac_chars hq c h4 with h5 | h5
        · exact Or.inl h5
        · exact Or.inr (Or.inl h5)
    · rw [if_neg hm] at h2
      by_cases hp : d = '+'
      · subst hp
        rw [if_pos rfl] at h2
        rcases List.mem_cons.mp hc with h4 | h4
        · exact Or.inr (Or.inr (Or.inr h4))
        · rcases parseUFrac_chars h2 c h4 with h5 | h5
          · exact Or.inl h5
          · exact Or.inr (Or.inl h5)
      · rw [if_neg hp] at h2
        rcases parseUFrac_chars h2 c hc with h5 | h5
        · exact Or.inl h5
        · exact Or.inr (Or.inl h5)

theorem parseFloat_ne_empty {s : String} {a : ℚ} (h : parseFloat s = some a) :
    s ≠ "" := by
  intro he
  subst he
  rw [(by decide : parseFloat "" = none)] at h
  cases h

theorem trimSuffix_append_pct (s : String) : trimSuffix (s ++ "%") "%" = s := by
  unfold trimSuffix
  rw [String.data_append, (show ("%" : String).data = ['%'] from rfl)]
  rw [List.reverse_append]
  simp [string_mk_data]

theorem trimSuffix_no_pct {s : String} (h : '%' ∉ s.data) : trimSuffix s "%" = s := by
  unfold trimSuffix
  rw [if_neg]
  intro hc
  have h1 : '%' ∈ s.data.reverse.take (("%" : String).data.length) := by
    rw [hc]
    decide
  exact h (List.mem_reverse.mp (List.take_subset _ _ h1))

theorem trimLeading_one_colon_marker (s : String) : trimLeading ("1:" ++ s) "1:" = s := by
  unfold trimLeading
  rw [String.data_append, (show ("1:" : String).data = ['1', ':'] from rfl)]
  simp [string_mk_data]

theorem trimLeading_no_colon {s : String} (h : ':' ∉ s.data) : trimLeading s "1:" = s := by
  unfold trimLeading
  rw [if_neg]
  intro hc
  have h1 : ':' ∈ s.data.take (("1:" : String).data.length) := by
    rw [hc]
    decide
  exact h (List.take_subset _ _ h1)

theorem append_pct_ne_empty (s : String) : s ++ "%" ≠ "" := by
  intro h
  have h2 : (s ++ "%").data = [] := by rw [h]
  rw [String.data_append] at h2
  exact absurd (List.append_eq_nil.mp h2).2 (by decide)

theorem ratio_append_ne_empty (s : String) : ("1:" ++ s) ≠ "" := by
  intro h
  have h2 : (("1:" ++ s) : String).data = [] := by rw [h]
  rw [String.data_append] at h2
  exact absurd (List.append_eq_nil.mp h2).1 (by decide)

/-- C9: the grammar markers are optional — for every string that parses as
a decimal number, appending the `%` suffix does not change the coverage
verdict, and prefixing `1:` does not change the ratio verdict, because
stripping only removes the marker when present. -/
theorem threshold_grammar_markers_optional (v : ℚ) (s : String) (a : ℚ)
    (h : parseFloat s = some a) :
    coverageAcceptable v s = coverageAcceptable v (s ++ "%") ∧
    codeToTestRatioAcceptable v s = codeToTestRatioAcceptable v ("1:" ++ s) := by
  have hchars := parseFloat_chars h
  have hsne : s ≠ "" := parseFloat_ne_empty h
  have hpct : '%' ∉ s.data := by
    intro hm
    rcases hchars '%' hm with h1 | h1 | h1 | h1 <;> exact absurd h1 (by decide)
  have hcol : ':' ∉ s.data := by
    intro hm
    rcases hchars ':' hm with h1 | h1 | h1 | h1 <;> exact absurd h1 (by decide)
  constructor
  · unfold coverageAcceptable
    rw [if_neg hsne, if_neg (append_pct_ne_empty s), trimSuffix_no_pct hpct,
      trimSuffix_append_pct s]
  · unfold codeToTestRatioAcceptable
    rw [if_neg hsne, if_neg (ratio_append_ne_empty s), trimLeading_no_colon hcol,
      trimLeading_one_colon_marker s]

/-- C9 witness: the theorem applied at the decimal string "80". -/
theorem threshold_grammar_markers_optional_w :
    coverageAcceptable 1 "80" = coverageAcceptable 1 ("80" ++ "%") ∧
    codeToTestRatioAcceptable 1 "80" = codeToTestRatioAcceptable 1 ("1:" ++ "80") :=
  threshold_grammar_markers_optional 1 "80" 80 (by decide)

theorem entry_data (K V : String) : (K ++ "=" ++ V).data = K.data ++ '=' :: V.data := by
  rw [String.data_append, String.data_append,
    (show ("=" : String).data = ['='] from rfl), List.append_assoc]
  rfl

theorem entry_contains (K V : String) : (K ++ "=" ++ V).data.contains '=' = true := by
  rw [entry_data]
  have hm : '=' ∈ K.data ++ '=' :: V.data :=
    List.mem_append_right _ (List.mem_cons_self _ _)
  exact List.elem_iff.mpr hm

theorem entry_key_chars {K : String} (hK : '=' ∉ K.data) :
    ∀ a ∈ K.data, (fun c => (c ≠ '=' : Bool)) a = true := by
  intro a ha
  simp only [decide_eq_true_eq]
  intro he
  exact hK (he ▸ ha)

theorem entry_takeWhile (K V : String) (hK : '=' ∉ K.data) :
    (K ++ "=" ++ V).data.takeWhile (fun c => c ≠ '=') = K.data := by
  rw [entry_data, takeWhile_all_append _ _ _ (entry_key_chars hK)]
  simp [List.takeWhile_cons]

theorem entry_dropTail (K V : String) (hK : '=' ∉ K.data) :
    ((K ++ "=" ++ V).data.dropWhile (fun c => c ≠ '=')).tail = V.data := by
  rw [entry_data, dropWhile_all_append _ _ _ (entry_key_chars hK)]
  simp [List.dropWhile_cons]

theorem entryKey_entry (K V : String) (hK : '=' ∉ K.data) :
    entryKey (K ++ "=" ++ V) = some K := by
  unfold entryKey
  rw [if_pos (entry_contains K V), entry_takeWhile K V hK, string_mk_data]

theorem foldl_envStep_skip (l : List String) (K : String) :
    ∀ m : String → Option String, (∀ s ∈ l, entryKey s ≠ some K) →
      l.foldl envStep m K = m K := by
  induction l with
  | nil => intro m _; rfl
  | cons a t ih =>
    intro m h
    rw [List.foldl_cons, ih (envStep m a) (fun s hs => h s (List.mem_cons_of_mem a hs))]
    have hk := h a (List.mem_cons_self a t)
    unfold entryKey at hk
    unfold envStep
    split_ifs with hc
    · rw [if_pos hc] at hk
      have hne : K ≠ (⟨a.data.takeWhile (fun c => c ≠ '=')⟩ : String) := by
        intro he
        exact hk (by rw [he])
      simp only [if_neg hne]
    · rfl

theorem foldl_envStep_mem (l : List String) (K V : String) (hK : '=' ∉ K.data) :
    ∀ m : String → Option String, (K ++ "=" ++ V) ∈ l →
      (∀ s ∈ l, entryKey s = some K → s = K ++ "=" ++ V) →
      l.foldl envStep m K = some V := by
  induction l with
  | nil => intro m hm _; cases hm
  | cons a t ih =>
    intro m hmem hall
    rw [List.foldl_cons]
    by_cases hmt : (K ++ "=" ++ V) ∈ t
    · exact ih (envStep m a) hmt (fun s hs => hall s (List.mem_cons_of_mem a hs))
    · have ha : a = K ++ "=" ++ V := by
        rcases List.mem_cons.mp hmem with h1 | h1
        · exact h1.symm
        · exact absurd h1 hmt
      subst ha
      have ht : ∀ s ∈ t, entryKey s ≠ some K := by
        intro s hs he
        exact hmt ((hall s (List.mem_cons_of_mem _ hs) he) ▸ hs)
      rw [foldl_envStep_skip t K _ ht]
      unfold envStep
      rw [if_pos (entry_contains K V), entry_takeWhile K V hK, string_mk_data,
        if_pos rfl, entry_dropTail K V hK, string_mk_data]

/-- C8: the env mapping exposes every process-environment entry verbatim —
an entry `K=V` whose key contains no `=` maps `K` to the whole remainder
`V` (split only at the first `=`, so `V` may itself contain `=`), with no
entry filtered out or redacted; the uniqueness hypothesis reflects that a
process environment binds each variable once. -/
theorem envMap_exposes_entries_verbatim (environ : List String) (K V : String)
    (hK : '=' ∉ K.data) (hmem : (K ++ "=" ++ V) ∈ environ)
    (huniq : ∀ s ∈ environ, entryKey s = some K → s = K ++ "=" ++ V) :
    envMap environ K = some V :=
  foldl_envStep_mem environ K V hK (fun _ => none) hmem huniq

/-- C8 witness: the theorem applied to an environment holding `A=b=c`; the
value `b=c` containing `=` is exposed whole. -/
theorem envMap_exposes_entries_verbatim_w :
    envMap ["PATH=/usr/bin", "A=b=c"] "A" = some "b=c" := by
  have h := envMap_exposes_entries_verbatim ["PATH=/usr/bin", "A=b=c"] "A" "b=c"
    (by decide) (by with_unfolding_all decide) (by with_unfolding_all decide)
  exact (by with_unfolding_all rfl :
    envMap ["PATH=/usr/bin", "A=b=c"] "A" = envMap ["PATH=/usr/bin", "A=b=c"] "A").trans h

/-- C6 witness: the theorem applied at concrete values. -/
theorem acceptable_empty_threshold_w : coverageAcceptable 5 "" = none :=
  (acceptable_empty_threshold 5 0).1

/-- C4 witness: the theorem applied at a concrete configuration whose every
collaborator fails, showing none of them is consulted. -/
theorem checkIf_empty_condition_w :
    CheckIf ⟨"", none⟩ ⟨Except.error "e", Except.error "e", [], ⟨0, 0, 0, 0, 0⟩⟩
      (fun _ _ => Except.error "e") "" = (Except.ok true, []) :=
  checkIf_empty_condition ⟨"", none⟩
    ⟨Except.error "e", Except.error "e", [], ⟨0, 0, 0, 0, 0⟩⟩
    (fun _ _ => Except.error "e")

/-- C2 witness: the theorem applied at a concrete coverage value. -/
theorem tier_mapping_table_w : CoverageColor 85 = green :=
  (tier_mapping_table.1 85).1.mpr (by norm_num)

end Octocov
